import Mathlib

/-!
Shallow embedding of the inventory/order backend (Express + MongoDB).

The program keeps a `lessons` collection (catalog items with a mutable
`spaces` capacity counter) and an `orders` collection (the order ledger).
The routes modelled here are the ones the claims are about:

* `PUT /lessons/:id` — administrative capacity adjustment (`putLesson`);
* `POST /orders` — the reservation engine (`postOrders`), from the source
  variant that carries the reservation logic (request body
  `{name, phoneNumber, items: [{id, quantity, price}]}`; it fetches the
  referenced lessons with `find({id: {$in: ids}})`, compares the number of
  documents found with the number of line items, checks each line item's
  quantity against the snapshot's `spaces`, inserts the order with
  `totalPrice` computed from the request's own `price` fields, and then
  applies `$inc {spaces: -quantity}` per line item).

MongoDB behaviour is modelled as: a collection is a list of documents;
`find` with `$in` filters the list by membership of `id` in the given id
list; `findOne`/the `find` inside the capacity loop return the first
match; `updateOne` modifies the first matching document, and reports
`modifiedCount = 0` both when no document matched and when the `$set`
left the matched document unchanged (the value written equals the value
already stored).

Numbers are modelled as `Int` (the code performs only integer-relevant
comparisons and arithmetic on them in the modelled paths). A missing
request field is the empty string / empty list / `none`, matching the
JavaScript falsiness checks in the handlers.
-/

namespace WebStore

/-- Lesson: a catalog document of the `lessons` collection, as used by the
modelled routes (`id`, `subject`, `price`, `location`, `spaces`). -/
structure Lesson where
  id : Int
  subject : String
  price : Int
  location : String
  spaces : Int
  deriving DecidableEq

/-- OrderItem: one line item of a `POST /orders` request body, as read by the
handler (`item.id`, `item.quantity`, `item.price` — the price field is
supplied by the caller in the request body). -/
structure OrderItem where
  id : Int
  quantity : Int
  price : Int
  deriving DecidableEq

/-- OrderReq: the `POST /orders` request body `{name, phoneNumber, items}`. -/
structure OrderReq where
  name : String
  phoneNumber : String
  items : List OrderItem
  deriving DecidableEq

/-- Order: the document the handler inserts into the `orders` collection:
`{name, phoneNumber, items, totalPrice}`. -/
structure Order where
  name : String
  phoneNumber : String
  items : List OrderItem
  totalPrice : Int
  deriving DecidableEq

/-- State: the two mutable collections the modelled routes touch. The order
ledger is a list with the most recent insertion at the head. -/
structure State where
  lessons : List Lesson
  orders : List Order
  deriving DecidableEq

/-- PutResult: the observable outcomes of `PUT /lessons/:id` — 400 (missing or
negative `spaces`), 404 (`modifiedCount === 0`), or 200 with the re-fetched
lesson. -/
inductive PutResult where
  | badRequest
  | notFound
  | ok (lesson : Lesson)
  deriving DecidableEq

/-- PostResult: the observable outcomes of `POST /orders` — 400 for a missing
or empty field, 404 "Some lessons were not found", 400 "Not enough spaces for
lesson ..." (we record the offending line item's id; the code's message shows
the lesson subject when available and the id otherwise), or 201 with the order
object that was inserted. -/
inductive PostResult where
  | invalidRequest
  | itemsNotFound
  | insufficientCapacity (offending : Int)
  | created (order : Order)
  deriving DecidableEq

/-- setFirst: `updateOne({id: x}, ...)` — apply `f` to the first document
whose `id` equals `x`, leaving everything else in place. -/
def setFirst (store : List Lesson) (x : Int) (f : Lesson → Lesson) : List Lesson :=
  match store with
  | [] => []
  | l :: rest => if l.id = x then f l :: rest else l :: setFirst rest x f

/-- putLesson: the `PUT /lessons/:id` handler. `spaces?` is the `spaces`
field of the request body (`none` when absent). Mirrors: 400 when
`spaces === undefined || spaces < 0`; `updateOne({id}, {$set: {spaces}})`;
404 when `modifiedCount === 0` (no match, or the matched document already
held that exact value); otherwise `findOne({id})` and 200 with the result. -/
def putLesson (st : State) (lessonId : Int) (spaces? : Option Int) : PutResult × State :=
  match spaces? with
  | none => (PutResult.badRequest, st)
  | some s =>
    if s < 0 then (PutResult.badRequest, st)
    else
      match st.lessons.find? (fun l => l.id == lessonId) with
      | none => (PutResult.notFound, st)
      | some l =>
        if l.spaces = s then (PutResult.notFound, st)
        else
          let lessons1 := setFirst st.lessons lessonId (fun m => { m with spaces := s })
          match lessons1.find? (fun m => m.id == lessonId) with
          | some u => (PutResult.ok u, { st with lessons := lessons1 })
          | none => (PutResult.notFound, { st with lessons := lessons1 })

/-- ordersSnapshot: `db.collection('lessons').find({id: {$in: items.map(i => i.id)}}).toArray()`
— the documents whose `id` occurs among the request's line item ids. -/
def ordersSnapshot (store : List Lesson) (items : List OrderItem) : List Lesson :=
  store.filter (fun l => decide (l.id ∈ items.map OrderItem.id))

/-- checkItems: the capacity loop — for each line item, look the lesson up in
the snapshot (`lessons.find(l => l.id === item.id)`); return the first item
that is unmatched or whose `quantity` exceeds the lesson's `spaces`
(the handler responds 400 for it), `none` when every item passes. -/
def checkItems (lessons : List Lesson) : List OrderItem → Option Int
  | [] => none
  | it :: rest =>
    match lessons.find? (fun l => l.id == it.id) with
    | none => some it.id
    | some l => if l.spaces < it.quantity then some it.id else checkItems lessons rest

/-- orderTotalPrice: `items.reduce((sum, item) => sum + item.price * item.quantity, 0)`
— computed from the request's own `price` fields. -/
def orderTotalPrice (items : List OrderItem) : Int :=
  items.foldl (fun s it => s + it.price * it.quantity) 0

/-- decSpaces: the deduction loop — for each line item,
`updateOne({id: item.id}, {$inc: {spaces: -item.quantity}})`. -/
def decSpaces (store : List Lesson) (items : List OrderItem) : List Lesson :=
  items.foldl (fun acc it => setFirst acc it.id (fun l => { l with spaces := l.spaces - it.quantity })) store

/-- mkOrder: the order document the handler builds and inserts. -/
def mkOrder (req : OrderReq) : Order :=
  { name := req.name
    phoneNumber := req.phoneNumber
    items := req.items
    totalPrice := orderTotalPrice req.items }

/-- postOrders: the `POST /orders` handler of the reservation-engine variant.
400 when a field is falsy or `items` is empty; fetch the snapshot; 404 when
`lessons.length !== items.length`; 400 naming the first line item that fails
the capacity check; otherwise insert the order, apply the `$inc` deductions,
and respond 201 with the order object. -/
def postOrders (st : State) (req : OrderReq) : PostResult × State :=
  if req.name = "" ∨ req.phoneNumber = "" ∨ req.items = [] then
    (PostResult.invalidRequest, st)
  else if (ordersSnapshot st.lessons req.items).length ≠ req.items.length then
    (PostResult.itemsNotFound, st)
  else
    match checkItems (ordersSnapshot st.lessons req.items) req.items with
    | some badId => (PostResult.insufficientCapacity badId, st)
    | none =>
      (PostResult.created (mkOrder req),
       { lessons := decSpaces st.lessons req.items, orders := mkOrder req :: st.orders })

/-- getSpaces: the `spaces` of the first lesson with the given id
(`findOne({id: x}).spaces`), `none` when no such lesson exists. -/
def getSpaces (st : State) (x : Int) : Option Int :=
  (st.lessons.find? (fun l => l.id == x)).map Lesson.spaces

/-- reqIds: the id list `items.map(item => item.id)` the handler passes to
`$in`. -/
def reqIds (items : List OrderItem) : List Int :=
  items.map OrderItem.id

/-- qtySum: total quantity the request's line items ask of the item with id
`x` (bookkeeping for the theorems; not part of the source). -/
def qtySum (x : Int) : List OrderItem → Int
  | [] => 0
  | it :: rest => (if it.id = x then it.quantity else 0) + qtySum x rest

/-- isCreated: whether a `POST /orders` outcome is the 201 success. -/
def isCreated : PostResult → Bool
  | PostResult.created _ => true
  | _ => false

/-- runCount: process a sequence of Place Order requests in order, and tally
the quantities of item `x` reserved by the requests that succeeded
(bookkeeping for the no-oversell theorem). -/
def runCount (x : Int) (st : State) : List OrderReq → State × Int
  | [] => (st, 0)
  | r :: rs =>
    ((runCount x (postOrders st r).2 rs).1,
     (if isCreated (postOrders st r).1 then qtySum x r.items else 0) +
       (runCount x (postOrders st r).2 rs).2)

/-! Helper lemmas about the store primitives. -/

lemma find?_eq_some_id {store : List Lesson} {x : Int} {l : Lesson}
    (h : store.find? (fun m => m.id == x) = some l) : l ∈ store ∧ l.id = x := by
  refine ⟨List.mem_of_find?_eq_some h, ?_⟩
  have hp := List.find?_some h
  simpa using hp

lemma mem_snapshot {store : List Lesson} {items : List OrderItem} {l : Lesson} :
    l ∈ ordersSnapshot store items ↔ l ∈ store ∧ l.id ∈ reqIds items := by
  simp [ordersSnapshot, reqIds, List.mem_filter]

lemma snapshot_ids_nodup {store : List Lesson} {items : List OrderItem}
    (hnd : (store.map Lesson.id).Nodup) :
    ((ordersSnapshot store items).map Lesson.id).Nodup :=
  List.Nodup.sublist (List.Sublist.map Lesson.id (List.filter_sublist store)) hnd

lemma eq_of_mem_of_id_eq {store : List Lesson} (hnd : (store.map Lesson.id).Nodup)
    {a b : Lesson} (ha : a ∈ store) (hb : b ∈ store) (hid : a.id = b.id) : a = b :=
  List.inj_on_of_nodup_map hnd ha hb hid

/-- snapshot_length_eq_iff: the handler's `lessons.length === items.length`
test passes exactly when the request's ids are pairwise distinct and each of
them matches a stored lesson (the store's ids being unique). -/
lemma snapshot_length_eq_iff {store : List Lesson} {items : List OrderItem}
    (hnd : (store.map Lesson.id).Nodup) :
    (ordersSnapshot store items).length = items.length ↔
      (reqIds items).Nodup ∧ ∀ i ∈ reqIds items, ∃ l, l ∈ store ∧ l.id = i := by
  have hfn : ((ordersSnapshot store items).map Lesson.id).Nodup := snapshot_ids_nodup hnd
  have hsubset : (ordersSnapshot store items).map Lesson.id ⊆ reqIds items := by
    intro i hi
    rcases List.mem_map.mp hi with ⟨l, hl, rfl⟩
    exact (mem_snapshot.mp hl).2
  have hsp : List.Subperm ((ordersSnapshot store items).map Lesson.id) (reqIds items) :=
    hfn.subperm hsubset
  have hlenf : ((ordersSnapshot store items).map Lesson.id).length =
      (ordersSnapshot store items).length := by simp
  have hlenr : (reqIds items).length = items.length := by simp [reqIds]
  constructor
  · intro h
    have hperm : List.Perm ((ordersSnapshot store items).map Lesson.id) (reqIds items) :=
      hsp.perm_of_length_le (by omega)
    refine ⟨hperm.nodup_iff.mp hfn, ?_⟩
    intro i hi
    have hmem : i ∈ (ordersSnapshot store items).map Lesson.id := hperm.mem_iff.mpr hi
    rcases List.mem_map.mp hmem with ⟨l, hl, rfl⟩
    exact ⟨l, (mem_snapshot.mp hl).1, rfl⟩
  · rintro ⟨hnodup, hall⟩
    have hsup : reqIds items ⊆ (ordersSnapshot store items).map Lesson.id := by
      intro i hi
      rcases hall i hi with ⟨l, hl, rfl⟩
      exact List.mem_map.mpr ⟨l, mem_snapshot.mpr ⟨hl, hi⟩, rfl⟩
    have h2 : List.Subperm (reqIds items) ((ordersSnapshot store items).map Lesson.id) :=
      hnodup.subperm hsup
    have hle1 := hsp.length_le
    have hle2 := h2.length_le
    omega

lemma snapshot_find?_eq {store : List Lesson} {items : List OrderItem}
    (hnd : (store.map Lesson.id).Nodup) {x : Int} {m l : Lesson}
    (hm : m ∈ store) (hmx : m.id = x)
    (hl : (ordersSnapshot store items).find? (fun u => u.id == x) = some l) : l = m := by
  obtain ⟨hl1, hl2⟩ := find?_eq_some_id hl
  exact eq_of_mem_of_id_eq hnd (mem_snapshot.mp hl1).1 hm (hl2.trans hmx.symm)

lemma checkItems_eq_none_iff {lessons : List Lesson} {items : List OrderItem} :
    checkItems lessons items = none ↔
      ∀ it ∈ items, ∃ l, lessons.find? (fun m => m.id == it.id) = some l ∧
        it.quantity ≤ l.spaces := by
  induction items with
  | nil => simp [checkItems]
  | cons it rest ih =>
    cases hf : lessons.find? (fun m => m.id == it.id) with
    | none =>
      constructor
      · intro h
        simp [checkItems, hf] at h
      · intro h
        rcases h it (by simp) with ⟨l, hl, _⟩
        rw [hf] at hl
        cases hl
    | some l =>
      by_cases hs : l.spaces < it.quantity
      · constructor
        · intro h
          simp [checkItems, hf, hs] at h
        · intro h
          rcases h it (by simp) with ⟨u, hu, hq⟩
          rw [hf] at hu
          injection hu with hu
          subst hu
          omega
      · constructor
        · intro h a ha
          rcases List.mem_cons.mp ha with rfl | ha2
          · exact ⟨l, hf, by omega⟩
          · refine (ih.mp ?_) a ha2
            simpa [checkItems, hf, hs] using h
        · intro h
          have hrest : checkItems lessons rest = none :=
            ih.mpr (fun a ha => h a (List.mem_cons_of_mem _ ha))
          simp [checkItems, hf, hs, hrest]

lemma setFirst_map_id {store : List Lesson} {x : Int} {f : Lesson → Lesson}
    (hf : ∀ l, (f l).id = l.id) :
    (setFirst store x f).map Lesson.id = store.map Lesson.id := by
  induction store with
  | nil => rfl
  | cons l rest ih =>
    by_cases h : l.id = x
    · simp [setFirst, h, hf]
    · simp [setFirst, h, ih]

lemma find?_setFirst_self {store : List Lesson} {x : Int} {f : Lesson → Lesson}
    (hf : ∀ l, (f l).id = l.id) :
    (setFirst store x f).find? (fun l => l.id == x) =
      (store.find? (fun l => l.id == x)).map f := by
  induction store with
  | nil => rfl
  | cons l rest ih =>
    by_cases h : l.id = x
    · have hp : (((f l).id == x) = true) := by simp [hf, h]
      have hp2 : ((l.id == x) = true) := by simp [h]
      simp [setFirst, h, List.find?_cons_of_pos, hp, hp2]
    · have hp : ((l.id == x) = false) := by simp [h]
      simp [setFirst, h, List.find?_cons_of_neg, hp, ih]

lemma find?_setFirst_ne {store : List Lesson} {x y : Int} {f : Lesson → Lesson}
    (hf : ∀ l, (f l).id = l.id) (hne : y ≠ x) :
    (setFirst store x f).find? (fun l => l.id == y) =
      store.find? (fun l => l.id == y) := by
  induction store with
  | nil => rfl
  | cons l rest ih =>
    simp only [setFirst]
    by_cases h : l.id = x
    · rw [if_pos h]
      have hp : ¬ (((f l).id == y) = true) := by
        simp [hf, h]
        omega
      have hp2 : ¬ ((l.id == y) = true) := by
        simp [h]
        omega
      have e1 : List.find? (fun u => u.id == y) (f l :: rest) =
          List.find? (fun u => u.id == y) rest := List.find?_cons_of_neg _ hp
      have e2 : List.find? (fun u => u.id == y) (l :: rest) =
          List.find? (fun u => u.id == y) rest := List.find?_cons_of_neg _ hp2
      rw [e1, e2]
    · rw [if_neg h]
      by_cases hy : l.id = y
      · have hp : ((l.id == y) = true) := by simp [hy]
        have e1 : List.find? (fun u => u.id == y) (l :: setFirst rest x f) = some l :=
          List.find?_cons_of_pos _ hp
        have e2 : List.find? (fun u => u.id == y) (l :: rest) = some l :=
          List.find?_cons_of_pos _ hp
        rw [e1, e2]
      · have hp : ¬ ((l.id == y) = true) := by simp [hy]
        have e1 : List.find? (fun u => u.id == y) (l :: setFirst rest x f) =
            List.find? (fun u => u.id == y) (setFirst rest x f) := List.find?_cons_of_neg _ hp
        have e2 : List.find? (fun u => u.id == y) (l :: rest) =
            List.find? (fun u => u.id == y) rest := List.find?_cons_of_neg _ hp
        rw [e1, e2, ih]

lemma decSpaces_cons {store : List Lesson} {it : OrderItem} {rest : List OrderItem} :
    decSpaces store (it :: rest) =
      decSpaces (setFirst store it.id (fun l => { l with spaces := l.spaces - it.quantity })) rest := by
  simp [decSpaces]

lemma decSpaces_map_id {items : List OrderItem} {store : List Lesson} :
    (decSpaces store items).map Lesson.id = store.map Lesson.id := by
  induction items generalizing store with
  | nil => rfl
  | cons it rest ih =>
    have hsf : (setFirst store it.id
          (fun l => { l with spaces := l.spaces - it.quantity })).map Lesson.id =
        store.map Lesson.id := setFirst_map_id (fun l => rfl)
    rw [decSpaces_cons, ih, hsf]

lemma find?_decSpaces {items : List OrderItem} {store : List Lesson} {x : Int} :
    (decSpaces store items).find? (fun l => l.id == x) =
      (store.find? (fun l => l.id == x)).map
        (fun l => { l with spaces := l.spaces - qtySum x items }) := by
  induction items generalizing store with
  | nil =>
    cases h : store.find? (fun l => l.id == x) with
    | none => simp [decSpaces, h]
    | some l => simp [decSpaces, qtySum, h]
  | cons it rest ih =>
    rw [decSpaces_cons, ih]
    by_cases h : it.id = x
    · subst h
      have hsf : (setFirst store it.id
            (fun l => { l with spaces := l.spaces - it.quantity })).find?
              (fun l => l.id == it.id) =
          (store.find? (fun l => l.id == it.id)).map
            (fun l => { l with spaces := l.spaces - it.quantity }) :=
        find?_setFirst_self (fun l => rfl)
      rw [hsf]
      cases hq : store.find? (fun l => l.id == it.id) with
      | none => simp
      | some l =>
        obtain ⟨lid, lsub, lpr, lloc, lsp⟩ := l
        simp [qtySum]
        omega
    · have hsf : (setFirst store it.id
            (fun l => { l with spaces := l.spaces - it.quantity })).find?
              (fun l => l.id == x) =
          store.find? (fun l => l.id == x) :=
        find?_setFirst_ne (fun l => rfl) (fun e => h e.symm)
      rw [hsf]
      cases hq : store.find? (fun l => l.id == x) with
      | none => simp
      | some l => simp [qtySum, h]

lemma qtySum_eq_zero {x : Int} {items : List OrderItem} (hx : x ∉ reqIds items) :
    qtySum x items = 0 := by
  induction items with
  | nil => rfl
  | cons it rest ih =>
    have h1 : it.id ≠ x := by
      intro e
      exact hx (by simp [reqIds, e])
    have h2 : x ∉ reqIds rest := fun hm => hx (by simp [reqIds] at hm ⊢; exact Or.inr hm)
    simp [qtySum, h1, ih h2]

lemma qtySum_le {x : Int} {items : List OrderItem} {s : Int}
    (hnd : (reqIds items).Nodup)
    (hb : ∀ it ∈ items, it.id = x → it.quantity ≤ s) (hs : 0 ≤ s) :
    qtySum x items ≤ s := by
  induction items with
  | nil => simpa [qtySum] using hs
  | cons it rest ih =>
    have hnd2 : (reqIds rest).Nodup := by
      simp [reqIds] at hnd
      exact hnd.2
    by_cases h : it.id = x
    · have hz : qtySum x rest = 0 := by
        apply qtySum_eq_zero
        simp [reqIds] at hnd ⊢
        intro a ha hax
        exact hnd.1 a ha (by rw [hax, h])
      have := hb it (by simp) h
      simp [qtySum, h, hz]
      omega
    · have := ih hnd2 (fun a ha hax => hb a (List.mem_cons_of_mem _ ha) hax)
      simpa [qtySum, h] using this

lemma qtySum_of_nodup {x : Int} {items : List OrderItem} {it : OrderItem}
    (hnd : (reqIds items).Nodup) (hit : it ∈ items) (hx : it.id = x) :
    qtySum x items = it.quantity := by
  induction items with
  | nil => cases hit
  | cons a rest ih =>
    have hnd2 : (reqIds rest).Nodup := by
      simp [reqIds] at hnd
      exact hnd.2
    rcases List.mem_cons.mp hit with rfl | hmem
    · have hz : qtySum x rest = 0 := by
        apply qtySum_eq_zero
        simp [reqIds] at hnd ⊢
        intro b hb hbx
        exact hnd.1 b hb (by rw [hbx, hx])
      simp [qtySum, hx, hz]
    · have haid : a.id ≠ x := by
        intro e
        simp [reqIds] at hnd
        exact hnd.1 it hmem (by rw [hx, e])
      simp [qtySum, haid, ih hnd2 hmem]

/-- postOrders_inv: every run of the handler either leaves the state
untouched with a non-success result, or takes the success path, in which
case the validation, the length test and the capacity loop all passed, the
built order was inserted and the deductions applied. -/
lemma postOrders_inv {st : State} {req : OrderReq} {res : PostResult} {st1 : State}
    (h : postOrders st req = (res, st1)) :
    (st1 = st ∧ ∀ o, res ≠ PostResult.created o) ∨
    (res = PostResult.created (mkOrder req) ∧
     req.name ≠ "" ∧ req.phoneNumber ≠ "" ∧ req.items ≠ [] ∧
     (ordersSnapshot st.lessons req.items).length = req.items.length ∧
     checkItems (ordersSnapshot st.lessons req.items) req.items = none ∧
     st1 = { lessons := decSpaces st.lessons req.items,
             orders := mkOrder req :: st.orders }) := by
  rw [postOrders] at h
  split_ifs at h with h1 h2
  · cases h
    exact Or.inl ⟨rfl, fun o ho => by cases ho⟩
  · cases h
    exact Or.inl ⟨rfl, fun o ho => by cases ho⟩
  · push_neg at h1
    cases hc : checkItems (ordersSnapshot st.lessons req.items) req.items with
    | some badId =>
      rw [hc] at h
      cases h
      exact Or.inl ⟨rfl, fun o ho => by cases ho⟩
    | none =>
      rw [hc] at h
      cases h
      push_neg at h2
      exact Or.inr ⟨rfl, h1.1, h1.2.1, h1.2.2, h2, rfl, rfl⟩

/-- postOrders_spaces_step: effect of one Place Order request on the `spaces`
of the item with id `x`. The stored ids are preserved; a non-success outcome
leaves the state untouched; a success subtracts exactly the request's total
quantity for `x`, and that total never exceeds the current non-negative
spaces. -/
lemma postOrders_spaces_step {st : State} {req : OrderReq} {res : PostResult} {st1 : State}
    (h : postOrders st req = (res, st1))
    (hnd : (st.lessons.map Lesson.id).Nodup)
    {x s : Int} (hx : getSpaces st x = some s) (hs : 0 ≤ s) :
    st1.lessons.map Lesson.id = st.lessons.map Lesson.id ∧
    ((∃ o, res = PostResult.created o) →
      getSpaces st1 x = some (s - qtySum x req.items) ∧ qtySum x req.items ≤ s) ∧
    ((∀ o, res ≠ PostResult.created o) → st1 = st) := by
  rcases postOrders_inv h with ⟨rfl, hnc⟩ | ⟨hres, hname, hphone, hne, hlen, hchk, hst1⟩
  · exact ⟨rfl, fun ⟨o, ho⟩ => absurd ho (hnc o), fun _ => rfl⟩
  · subst hst1
    cases hm : st.lessons.find? (fun l => l.id == x) with
    | none =>
      rw [getSpaces, hm] at hx
      cases hx
    | some m =>
      obtain ⟨hmmem, hmid⟩ := find?_eq_some_id hm
      have hms : m.spaces = s := by
        rw [getSpaces, hm] at hx
        simpa using hx
      refine ⟨decSpaces_map_id, ?_, ?_⟩
      · intro _
        have hfind : (decSpaces st.lessons req.items).find? (fun l => l.id == x) =
            some { m with spaces := m.spaces - qtySum x req.items } := by
          rw [find?_decSpaces, hm]
          rfl
        have hgs : getSpaces
            { lessons := decSpaces st.lessons req.items,
              orders := mkOrder req :: st.orders } x = some (s - qtySum x req.items) := by
          rw [getSpaces]
          simp only [hfind]
          simp [hms]
        refine ⟨hgs, ?_⟩
        by_cases hmem : x ∈ reqIds req.items
        · have hitems := (snapshot_length_eq_iff hnd).mp hlen
          have hb : ∀ it ∈ req.items, it.id = x → it.quantity ≤ s := by
            intro it hit hid
            obtain ⟨l, hfl, hql⟩ := checkItems_eq_none_iff.mp hchk it hit
            rw [hid] at hfl
            have hlm : l = m := snapshot_find?_eq hnd hmmem hmid hfl
            rw [hlm, hms] at hql
            exact hql
          exact qtySum_le hitems.1 hb hs
        · rw [qtySum_eq_zero hmem]
          exact hs
      · intro hno
        exact absurd hres (hno _)

/-- runCount_spaces: running any sequence of Place Order requests, the tracked
item's spaces equals its initial value minus the tally of successfully
reserved quantities, and never goes negative. -/
lemma runCount_spaces {x : Int} (reqs : List OrderReq) {st : State} {s : Int}
    (hnd : (st.lessons.map Lesson.id).Nodup)
    (hx : getSpaces st x = some s) (hs : 0 ≤ s) :
    getSpaces (runCount x st reqs).1 x = some (s - (runCount x st reqs).2) ∧
    0 ≤ s - (runCount x st reqs).2 := by
  induction reqs generalizing st s with
  | nil =>
    constructor
    · simpa [runCount] using hx
    · simpa [runCount] using hs
  | cons r rs ih =>
    have hpo : postOrders st r = ((postOrders st r).1, (postOrders st r).2) := rfl
    obtain ⟨hids, hcre, hnc⟩ := postOrders_spaces_step hpo hnd hx hs
    have hnd1 : ((postOrders st r).2.lessons.map Lesson.id).Nodup := by
      rw [hids]
      exact hnd
    by_cases hc : isCreated (postOrders st r).1 = true
    · obtain ⟨o, ho⟩ : ∃ o, (postOrders st r).1 = PostResult.created o := by
        cases hh : (postOrders st r).1 with
        | created o => exact ⟨o, rfl⟩
        | invalidRequest => rw [hh] at hc; cases hc
        | itemsNotFound => rw [hh] at hc; cases hc
        | insufficientCapacity b => rw [hh] at hc; cases hc
      obtain ⟨hgs, hle⟩ := hcre ⟨o, ho⟩
      obtain ⟨ih1, ih2⟩ := ih hnd1 hgs (by omega)
      have hcf : (if isCreated (postOrders st r).1 = true then qtySum x r.items else 0) =
          qtySum x r.items := if_pos hc
      rw [runCount, hcf]
      have harith : s - (qtySum x r.items + (runCount x (postOrders st r).2 rs).2) =
          s - qtySum x r.items - (runCount x (postOrders st r).2 rs).2 := by ring
      rw [harith]
      exact ⟨ih1, by omega⟩
    · have hst1 : (postOrders st r).2 = st := by
        apply hnc
        intro o ho
        rw [ho] at hc
        exact hc rfl
      have hcf : (if isCreated (postOrders st r).1 = true then qtySum x r.items else 0) = 0 :=
        if_neg hc
      rw [runCount, hcf, hst1]
      obtain ⟨ih1, ih2⟩ := ih hnd hx hs
      have : (0:Int) + (runCount x st rs).2 = (runCount x st rs).2 := by ring
      rw [this]
      exact ⟨ih1, ih2⟩

lemma snapshot_find?_of_mem {store : List Lesson} {items : List OrderItem}
    (hnd : (store.map Lesson.id).Nodup) {m : Lesson}
    (hm : m ∈ store) (hin : m.id ∈ reqIds items) :
    (ordersSnapshot store items).find? (fun u => u.id == m.id) = some m := by
  cases hf : (ordersSnapshot store items).find? (fun u => u.id == m.id) with
  | none =>
    rw [List.find?_eq_none] at hf
    exact absurd (by simp : (m.id == m.id) = true) (hf m (mem_snapshot.mpr ⟨hm, hin⟩))
  | some l =>
    exact congrArg some (snapshot_find?_eq hnd hm rfl hf)

lemma orderTotalPrice_eq_sum (items : List OrderItem) :
    orderTotalPrice items = (items.map (fun it => it.price * it.quantity)).sum := by
  suffices h : ∀ a : Int, items.foldl (fun s it => s + it.price * it.quantity) a =
      a + (items.map (fun it => it.price * it.quantity)).sum by
    simpa [orderTotalPrice] using h 0
  induction items with
  | nil =>
    intro a
    simp
  | cons it rest ih =>
    intro a
    simp only [List.foldl_cons, List.map_cons, List.sum_cons, ih]
    ring

example : postOrders ⟨[⟨1, "Math", 20, "Hendon", 5⟩], []⟩ ⟨"A", "07", [⟨1, 5, 20⟩]⟩ =
    (PostResult.created ⟨"A", "07", [⟨1, 5, 20⟩], 100⟩,
     ⟨[⟨1, "Math", 20, "Hendon", 0⟩], [⟨"A", "07", [⟨1, 5, 20⟩], 100⟩]⟩) := by
  decide

example : postOrders ⟨[⟨1, "Math", 20, "Hendon", 0⟩], []⟩ ⟨"A", "07", [⟨1, 1, 20⟩]⟩ =
    (PostResult.insufficientCapacity 1, ⟨[⟨1, "Math", 20, "Hendon", 0⟩], []⟩) := by
  decide

example : (postOrders ⟨[⟨1, "Math", 20, "Hendon", 10⟩], []⟩
    ⟨"A", "07", [⟨1, 1, 20⟩, ⟨1, 1, 20⟩]⟩).1 = PostResult.itemsNotFound := by
  decide

example : putLesson ⟨[⟨1, "Math", 20, "Hendon", 5⟩], []⟩ 1 (some 5) =
    (PutResult.notFound, ⟨[⟨1, "Math", 20, "Hendon", 5⟩], []⟩) := by
  decide

example : (putLesson ⟨[⟨1, "Math", 20, "Hendon", 5⟩], []⟩ 1 (some 7)).1 =
    PutResult.ok ⟨1, "Math", 20, "Hendon", 7⟩ := by
  decide

/-! Concrete fixtures used by the claim witnesses and counterexamples. -/

/-- sampleState: the spec's concrete item `{id: 1, spaces: 5, price: 20}` with
an empty order ledger. -/
def sampleState : State := ⟨[⟨1, "Math", 20, "Hendon", 5⟩], []⟩

/-- c1Reqs: two reservation requests of quantity 3 each against item 1. -/
def c1Reqs : List OrderReq :=
  [⟨"Alice", "0700", [⟨1, 3, 20⟩]⟩, ⟨"Bob", "0701", [⟨1, 3, 20⟩]⟩]

/-! Claim theorems. -/

/-- C1: for an item with initial capacity `C`, over any sequence of Place
Order requests the sum of successfully reserved quantities never exceeds `C`,
the final spaces is exactly `C` minus that sum, and the spaces is never
negative (every prefix of the sequence is itself such a sequence, so the
bound holds at every intermediate point as well). -/
theorem c1_spaces_never_negative {st : State} {x C : Int} (reqs : List OrderReq)
    (hnd : (st.lessons.map Lesson.id).Nodup)
    (hx : getSpaces st x = some C) (hC : 0 ≤ C) :
    getSpaces (runCount x st reqs).1 x = some (C - (runCount x st reqs).2) ∧
    (runCount x st reqs).2 ≤ C ∧ 0 ≤ C - (runCount x st reqs).2 := by
  obtain ⟨h1, h2⟩ := runCount_spaces reqs hnd hx hC
  exact ⟨h1, by omega, h2⟩

/-- C1 witness: item 1 starts with spaces 5; of two quantity-3 requests the
first succeeds and the second is rejected, so the tally is 3 and the final
spaces 2. -/
theorem c1_spaces_never_negative_witness :
    ((sampleState.lessons.map Lesson.id).Nodup ∧
     getSpaces sampleState 1 = some 5 ∧ (0:Int) ≤ 5) ∧
    (getSpaces (runCount 1 sampleState c1Reqs).1 1 =
       some (5 - (runCount 1 sampleState c1Reqs).2) ∧
     (runCount 1 sampleState c1Reqs).2 ≤ 5 ∧
     0 ≤ 5 - (runCount 1 sampleState c1Reqs).2) :=
  ⟨⟨by decide, by decide, by decide⟩,
   c1_spaces_never_negative c1Reqs (by decide) (by decide) (by decide)⟩

/-- c2Req: a request whose only line item asks for quantity 0 of item 1. -/
def c2Req : OrderReq := ⟨"Alice", "0700", [⟨1, 0, 20⟩]⟩

/-- C2 counterexample: a Place Order request with quantity 0 succeeds (a
201-committed order) and leaves the referenced item's capacity exactly as it
was — the handler never validates quantities, so a successful order can leave
a referenced item's capacity unchanged, contrary to the claim's final clause. -/
theorem c2_counterexample :
    isCreated (postOrders sampleState c2Req).1 = true ∧
    getSpaces (postOrders sampleState c2Req).2 1 = getSpaces sampleState 1 := by
  decide

/-- C2 (amended): when a Place Order request succeeds, the returned order is
appended to the ledger in the same step and every referenced item's spaces is
decremented by exactly that line item's requested quantity; hence a
referenced item's capacity is left unchanged only when its requested quantity
is zero (quantities are not validated by the code). -/
theorem c2_success_decrements {st : State} {req : OrderReq} {o : Order} {st1 : State}
    (hnd : (st.lessons.map Lesson.id).Nodup)
    (h : postOrders st req = (PostResult.created o, st1)) :
    st1.orders = o :: st.orders ∧
    ∀ it ∈ req.items, ∃ s, getSpaces st it.id = some s ∧
      getSpaces st1 it.id = some (s - it.quantity) ∧
      (it.quantity ≠ 0 → getSpaces st1 it.id ≠ getSpaces st it.id) := by
  rcases postOrders_inv h with ⟨_, hnc⟩ | ⟨hres, _, _, _, hlen, _, hst1⟩
  · exact absurd rfl (hnc o)
  · have ho : o = mkOrder req := by
      injection hres with he
    obtain ⟨hitems, hall⟩ := (snapshot_length_eq_iff hnd).mp hlen
    subst hst1
    refine ⟨by rw [ho], ?_⟩
    intro it hit
    obtain ⟨m, hmmem, hmid⟩ := hall it.id (List.mem_map.mpr ⟨it, hit, rfl⟩)
    have hfm : st.lessons.find? (fun l => l.id == it.id) = some m := by
      cases hf : st.lessons.find? (fun l => l.id == it.id) with
      | none =>
        rw [List.find?_eq_none] at hf
        exact absurd (by simp [hmid] : (m.id == it.id) = true) (hf m hmmem)
      | some u =>
        obtain ⟨humem, huid⟩ := find?_eq_some_id hf
        exact congrArg some (eq_of_mem_of_id_eq hnd humem hmmem (huid.trans hmid.symm))
    have hq : qtySum it.id req.items = it.quantity := qtySum_of_nodup hitems hit rfl
    refine ⟨m.spaces, ?_, ?_, ?_⟩
    · rw [getSpaces, hfm]
      rfl
    · show ((decSpaces st.lessons req.items).find? (fun l => l.id == it.id)).map
        Lesson.spaces = some (m.spaces - it.quantity)
      rw [find?_decSpaces, hfm, hq]
      rfl
    · intro hqz
      show ((decSpaces st.lessons req.items).find? (fun l => l.id == it.id)).map
          Lesson.spaces ≠ getSpaces st it.id
      rw [find?_decSpaces, hfm, hq, getSpaces, hfm]
      simp
      omega

/-- c2wReq, c2wOrder, c2wState: a quantity-2 order on item 1 and its committed
outcome (spaces 5 → 3). -/
def c2wReq : OrderReq := ⟨"Alice", "0700", [⟨1, 2, 20⟩]⟩

def c2wOrder : Order := ⟨"Alice", "0700", [⟨1, 2, 20⟩], 40⟩

def c2wState : State := ⟨[⟨1, "Math", 20, "Hendon", 3⟩], [c2wOrder]⟩

/-- C2 witness: the quantity-2 order on item 1 commits, appends the order and
drops spaces from 5 to 3. -/
theorem c2_success_decrements_witness :
    ((sampleState.lessons.map Lesson.id).Nodup ∧
     postOrders sampleState c2wReq = (PostResult.created c2wOrder, c2wState)) ∧
    (c2wState.orders = c2wOrder :: sampleState.orders ∧
     ∀ it ∈ c2wReq.items, ∃ s, getSpaces sampleState it.id = some s ∧
       getSpaces c2wState it.id = some (s - it.quantity) ∧
       (it.quantity ≠ 0 → getSpaces c2wState it.id ≠ getSpaces sampleState it.id)) :=
  ⟨⟨by decide, by decide⟩, c2_success_decrements (by decide) (by decide)⟩

/-- C3: a two-line-item request in which the first item's quantity fits its
lesson's capacity but the second (distinct) item's quantity exceeds its
lesson's capacity fails with the insufficient-capacity outcome naming the
offending item, and the state — every lesson's spaces and the order ledger —
is exactly what it was: the whole capacity loop runs before any write. -/
theorem c3_all_or_nothing {st : State} {name phone : String} {itA itB : OrderItem}
    {lA lB : Lesson}
    (hnd : (st.lessons.map Lesson.id).Nodup)
    (hname : name ≠ "") (hphone : phone ≠ "")
    (hlA : lA ∈ st.lessons) (hidA : lA.id = itA.id) (hok : itA.quantity ≤ lA.spaces)
    (hlB : lB ∈ st.lessons) (hidB : lB.id = itB.id) (hbad : lB.spaces < itB.quantity)
    (hne : itA.id ≠ itB.id) :
    postOrders st ⟨name, phone, [itA, itB]⟩ =
      (PostResult.insufficientCapacity itB.id, st) := by
  have hv : ¬ (name = "" ∨ phone = "" ∨ ([itA, itB] : List OrderItem) = []) := by
    push_neg
    exact ⟨hname, hphone, by simp⟩
  have hlen : (ordersSnapshot st.lessons [itA, itB]).length =
      ([itA, itB] : List OrderItem).length := by
    refine (snapshot_length_eq_iff hnd).mpr ⟨?_, ?_⟩
    · simp [reqIds, hne]
    · intro i hi
      rcases (by simpa [reqIds] using hi : i = itA.id ∨ i = itB.id) with rfl | rfl
      · exact ⟨lA, hlA, hidA⟩
      · exact ⟨lB, hlB, hidB⟩
  have hfA : (ordersSnapshot st.lessons [itA, itB]).find? (fun u => u.id == itA.id) =
      some lA := by
    have h0 : lA.id ∈ reqIds ([itA, itB] : List OrderItem) := by simp [reqIds, hidA]
    have h1 := snapshot_find?_of_mem hnd hlA h0
    rw [hidA] at h1
    exact h1
  have hfB : (ordersSnapshot st.lessons [itA, itB]).find? (fun u => u.id == itB.id) =
      some lB := by
    have h0 : lB.id ∈ reqIds ([itA, itB] : List OrderItem) := by simp [reqIds, hidB]
    have h1 := snapshot_find?_of_mem hnd hlB h0
    rw [hidB] at h1
    exact h1
  have hchk : checkItems (ordersSnapshot st.lessons [itA, itB]) [itA, itB] =
      some itB.id := by
    rw [checkItems, hfA]
    show (if lA.spaces < itA.quantity then some itA.id
      else checkItems (ordersSnapshot st.lessons [itA, itB]) [itB]) = some itB.id
    rw [if_neg (by omega), checkItems, hfB]
    show (if lB.spaces < itB.quantity then some itB.id
      else checkItems (ordersSnapshot st.lessons [itA, itB]) []) = some itB.id
    rw [if_pos hbad]
  rw [postOrders]
  simp only []
  rw [if_neg hv, if_neg (fun hh => hh hlen), hchk]

/-- c3St: two lessons, item 1 with spaces 5 and item 2 with spaces 1. -/
def c3St : State := ⟨[⟨1, "Math", 20, "Hendon", 5⟩, ⟨2, "Science", 30, "Hendon", 1⟩], []⟩

/-- C3 witness: requesting 2 of item 1 (fits: 2 ≤ 5) and 4 of item 2
(exceeds: 1 < 4) is rejected naming item 2, with no change to either lesson. -/
theorem c3_all_or_nothing_witness :
    ((c3St.lessons.map Lesson.id).Nodup ∧
     ⟨1, "Math", 20, "Hendon", 5⟩ ∈ c3St.lessons ∧
     ⟨2, "Science", 30, "Hendon", 1⟩ ∈ c3St.lessons) ∧
    postOrders c3St ⟨"Alice", "0700", [⟨1, 2, 20⟩, ⟨2, 4, 30⟩]⟩ =
      (PostResult.insufficientCapacity 2, c3St) :=
  ⟨⟨by decide, by decide, by decide⟩,
   @c3_all_or_nothing c3St "Alice" "0700" ⟨1, 2, 20⟩ ⟨2, 4, 30⟩
     ⟨1, "Math", 20, "Hendon", 5⟩ ⟨2, "Science", 30, "Hendon", 1⟩
     (by decide) (by decide) (by decide) (by decide) (by decide) (by decide)
     (by decide) (by decide) (by decide) (by decide)⟩

/-- c4Req: a request for 2 of item 1 whose line item carries a caller-chosen
price 7 although the catalog stores price 20. -/
def c4Req : OrderReq := ⟨"Alice", "0700", [⟨1, 2, 7⟩]⟩

/-- C4 counterexample: the committed order's totalPrice is 14 = 7 * 2, taken
from the caller-supplied price field, while the catalog price of item 1 at
resolve time is 20, so the claimed totalPrice 20 * 2 = 40 does not match. -/
theorem c4_counterexample :
    (postOrders sampleState c4Req).1 =
      PostResult.created ⟨"Alice", "0700", [⟨1, 2, 7⟩], 14⟩ ∧
    (sampleState.lessons.find? (fun l => l.id == 1)).map Lesson.price = some 20 ∧
    (14 : Int) ≠ 20 * 2 := by
  decide

/-- C4 (amended): a committed order stores the request's line items verbatim
and its totalPrice is the sum over them of the caller-supplied price times
quantity; the catalog price is never consulted. -/
theorem c4_total_price {st : State} {req : OrderReq} {o : Order} {st1 : State}
    (h : postOrders st req = (PostResult.created o, st1)) :
    o.totalPrice = (req.items.map (fun it => it.price * it.quantity)).sum ∧
    o.items = req.items := by
  rcases postOrders_inv h with ⟨_, hnc⟩ | ⟨hres, _⟩
  · exact absurd rfl (hnc o)
  · have ho : o = mkOrder req := by
      injection hres with he
    subst ho
    exact ⟨orderTotalPrice_eq_sum req.items, rfl⟩

/-- c4Order, c4State: the outcome of `c4Req` against `sampleState`. -/
def c4Order : Order := ⟨"Alice", "0700", [⟨1, 2, 7⟩], 14⟩

def c4State : State := ⟨[⟨1, "Math", 20, "Hendon", 3⟩], [c4Order]⟩

/-- C4 witness: the committed order of `c4Req` stores the request items and
totalPrice 14 = 7 * 2 from the caller's price. -/
theorem c4_total_price_witness :
    postOrders sampleState c4Req = (PostResult.created c4Order, c4State) ∧
    (c4Order.totalPrice = (c4Req.items.map (fun it => it.price * it.quantity)).sum ∧
     c4Order.items = c4Req.items) :=
  ⟨by decide, @c4_total_price sampleState c4Req c4Order c4State (by decide)⟩

/-- c5State, c5Req: item 1 with ten spaces, and a request naming item 1 twice
with quantities 1 and 1 (combined 2 ≤ 10). -/
def c5State : State := ⟨[⟨1, "Math", 20, "Hendon", 10⟩], []⟩

def c5Req : OrderReq := ⟨"Alice", "0700", [⟨1, 1, 20⟩, ⟨1, 1, 20⟩]⟩

/-- C5 counterexample: item 1 has spaces 10 ≥ 1 + 1, yet the request naming it
in two line items does not succeed — it is rejected with the 404 not-found
outcome — refuting "the request succeeds if and only if the item's current
spaces is at least q1 + q2". -/
theorem c5_counterexample :
    postOrders c5State c5Req = (PostResult.itemsNotFound, c5State) ∧
    (1 : Int) + 1 ≤ 10 := by
  decide

/-- C5 (amended): a request that references the same existing item in two line
items is never evaluated against the combined quantity: whatever q1 and q2,
the `$in` fetch returns one document for the repeated id, the handler's
`lessons.length !== items.length` test fires, and the request is rejected with
the 404 not-found outcome, the state unchanged. -/
theorem c5_duplicate_same_item {st : State} {name phone : String} {i q1 p1 q2 p2 : Int}
    {l : Lesson}
    (hnd : (st.lessons.map Lesson.id).Nodup)
    (hname : name ≠ "") (hphone : phone ≠ "")
    (_hl : l ∈ st.lessons) (_hli : l.id = i) :
    postOrders st ⟨name, phone, [⟨i, q1, p1⟩, ⟨i, q2, p2⟩]⟩ =
      (PostResult.itemsNotFound, st) := by
  have hv : ¬ (name = "" ∨ phone = "" ∨
      ([⟨i, q1, p1⟩, ⟨i, q2, p2⟩] : List OrderItem) = []) := by
    push_neg
    exact ⟨hname, hphone, by simp⟩
  have hlen : (ordersSnapshot st.lessons [⟨i, q1, p1⟩, ⟨i, q2, p2⟩]).length ≠
      ([⟨i, q1, p1⟩, ⟨i, q2, p2⟩] : List OrderItem).length := by
    intro he
    have := ((snapshot_length_eq_iff hnd).mp he).1
    simp [reqIds] at this
  rw [postOrders]
  simp only []
  rw [if_neg hv, if_pos hlen]

/-- C5 witness: with item 1 existing (spaces 10), the duplicate request of
quantities 2 and 3 is rejected with not-found and no state change. -/
theorem c5_duplicate_same_item_witness :
    ((c5State.lessons.map Lesson.id).Nodup ∧
     ⟨1, "Math", 20, "Hendon", 10⟩ ∈ c5State.lessons) ∧
    postOrders c5State ⟨"Bob", "0701", [⟨1, 2, 20⟩, ⟨1, 3, 20⟩]⟩ =
      (PostResult.itemsNotFound, c5State) :=
  ⟨⟨by decide, by decide⟩,
   @c5_duplicate_same_item c5State "Bob" "0701" 1 2 20 3 20 ⟨1, "Math", 20, "Hendon", 10⟩
     (by decide) (by decide) (by decide) (by decide) (by decide)⟩

/-- C6: a Place Order request whose required fields are present but in which
some referenced itemId matches no stored lesson fails with the 404 not-found
outcome, creating no order and leaving every lesson's spaces (the whole
state) unchanged: the `$in` fetch returns fewer documents than line items,
and the handler returns before any write. -/
theorem c6_unknown_item {st : State} {req : OrderReq} {it : OrderItem}
    (hnd : (st.lessons.map Lesson.id).Nodup)
    (hname : req.name ≠ "") (hphone : req.phoneNumber ≠ "")
    (hit : it ∈ req.items) (hmiss : ∀ l ∈ st.lessons, l.id ≠ it.id) :
    postOrders st req = (PostResult.itemsNotFound, st) := by
  have hv : ¬ (req.name = "" ∨ req.phoneNumber = "" ∨ req.items = []) := by
    push_neg
    exact ⟨hname, hphone, List.ne_nil_of_mem hit⟩
  have hlen : (ordersSnapshot st.lessons req.items).length ≠ req.items.length := by
    intro he
    obtain ⟨l, hl, hli⟩ := ((snapshot_length_eq_iff hnd).mp he).2 it.id
      (List.mem_map.mpr ⟨it, hit, rfl⟩)
    exact hmiss l hl hli
  rw [postOrders]
  rw [if_neg hv, if_pos hlen]

/-- C6 witness: a request referencing the unknown item 2 against the
one-lesson catalog is rejected with not-found and no state change. -/
theorem c6_unknown_item_witness :
    ((sampleState.lessons.map Lesson.id).Nodup ∧
     (∀ l ∈ sampleState.lessons, l.id ≠ (2:Int))) ∧
    postOrders sampleState ⟨"Alice", "0700", [⟨2, 1, 20⟩]⟩ =
      (PostResult.itemsNotFound, sampleState) :=
  ⟨⟨by decide, by decide⟩,
   @c6_unknown_item sampleState ⟨"Alice", "0700", [⟨2, 1, 20⟩]⟩ ⟨2, 1, 20⟩
     (by decide) (by decide) (by decide) (by decide) (by decide)⟩

/-- C7 counterexample: item 1 exists and the requested spaces value 5 is a
non-negative integer equal to its current spaces, yet the route answers 404
("Lesson not found or no change in spaces") instead of succeeding:
`updateOne` reports `modifiedCount: 0` when the `$set` writes the value
already stored, and the handler cannot tell that from a missing id. -/
theorem c7_counterexample :
    (∃ l, l ∈ sampleState.lessons ∧ l.id = 1 ∧ l.spaces = 5) ∧ (0:Int) ≤ 5 ∧
    putLesson sampleState 1 (some 5) = (PutResult.notFound, sampleState) := by
  decide

/-- C7 (amended): the Adjust Capacity route answers 400 exactly when `spaces`
is missing or negative; for a non-negative value it succeeds — returning the
item re-read after the update, i.e. the matched lesson with its spaces set —
if and only if some stored lesson matches the id with a current spaces value
different from the request's; when the id is unknown or the value equals the
current spaces (both give `modifiedCount === 0`) it answers 404, state
unchanged. -/
theorem c7_adjust_capacity (st : State) (i : Int) :
    putLesson st i none = (PutResult.badRequest, st) ∧
    ∀ s : Int,
      (s < 0 → putLesson st i (some s) = (PutResult.badRequest, st)) ∧
      (0 ≤ s →
        (st.lessons.find? (fun l => l.id == i) = none →
          putLesson st i (some s) = (PutResult.notFound, st)) ∧
        ∀ l, st.lessons.find? (fun l => l.id == i) = some l →
          (l.spaces = s → putLesson st i (some s) = (PutResult.notFound, st)) ∧
          (l.spaces ≠ s → putLesson st i (some s) =
            (PutResult.ok { l with spaces := s },
             { st with lessons :=
                 setFirst st.lessons i (fun m => { m with spaces := s }) }))) := by
  refine ⟨rfl, fun s => ⟨fun hneg => by simp [putLesson, hneg], fun hpos => ?_⟩⟩
  have hns : ¬ s < 0 := by omega
  constructor
  · intro hnone
    simp [putLesson, hns, hnone]
  · intro l hl
    constructor
    · intro heq
      simp [putLesson, hns, hl, heq]
    · intro hnel
      have hsf : (setFirst st.lessons i (fun m => { m with spaces := s })).find?
          (fun m => m.id == i) =
          (st.lessons.find? (fun m => m.id == i)).map
            (fun m => { m with spaces := s }) :=
        find?_setFirst_self (fun m => rfl)
      simp [putLesson, hns, hl, hnel, hsf]

/-- C7 witness: setting item 1's spaces to 7 (≠ current 5) succeeds and
returns the updated lesson, by the success case of the amended theorem. -/
theorem c7_adjust_capacity_witness :
    ((0:Int) ≤ 7 ∧
     sampleState.lessons.find? (fun l => l.id == 1) =
       some ⟨1, "Math", 20, "Hendon", 5⟩ ∧ (5:Int) ≠ 7) ∧
    putLesson sampleState 1 (some 7) =
      (PutResult.ok ⟨1, "Math", 20, "Hendon", 7⟩,
       ⟨[⟨1, "Math", 20, "Hendon", 7⟩], []⟩) :=
  ⟨⟨by decide, by decide, by decide⟩, by
    have h := (((c7_adjust_capacity sampleState 1).2 7).2 (by decide)).2
      ⟨1, "Math", 20, "Hendon", 5⟩ (by decide)
    exact (h.2 (by decide)).trans (by decide)⟩

/-- c8AfterState: the state after the successful quantity-5 order: item 1
exhausted (spaces 0), the order on the ledger. -/
def c8AfterState : State :=
  ⟨[⟨1, "Math", 20, "Hendon", 0⟩], [⟨"Alice", "0700", [⟨1, 5, 20⟩], 100⟩]⟩

/-- C8: on item `{id: 1, spaces: 5, price: 20}` a reservation of quantity 5
succeeds and leaves spaces 0; a following reservation of any positive
quantity — in particular quantity 1 — fails with the insufficient-capacity
outcome and changes nothing, rather than succeeding with a zero decrement. -/
theorem c8_exhaustion {q : Int} (hq : 0 < q) :
    postOrders sampleState ⟨"Alice", "0700", [⟨1, 5, 20⟩]⟩ =
      (PostResult.created ⟨"Alice", "0700", [⟨1, 5, 20⟩], 100⟩, c8AfterState) ∧
    getSpaces c8AfterState 1 = some 0 ∧
    postOrders c8AfterState ⟨"Bob", "0701", [⟨1, q, 20⟩]⟩ =
      (PostResult.insufficientCapacity 1, c8AfterState) := by
  refine ⟨by decide, by decide, ?_⟩
  have hv : ¬ (("Bob":String) = "" ∨ ("0701":String) = "" ∨
      ([⟨1, q, 20⟩] : List OrderItem) = []) := by
    push_neg
    exact ⟨by decide, by decide, by simp⟩
  have hsnap : ordersSnapshot c8AfterState.lessons [⟨1, q, 20⟩] =
      [⟨1, "Math", 20, "Hendon", 0⟩] := rfl
  have hchk : checkItems (ordersSnapshot c8AfterState.lessons [⟨1, q, 20⟩])
      [⟨1, q, 20⟩] = some 1 := by
    rw [hsnap, checkItems]
    have hf : (([⟨1, "Math", 20, "Hendon", 0⟩] : List Lesson).find?
        (fun l => l.id == OrderItem.id ⟨1, q, 20⟩)) =
        some ⟨1, "Math", 20, "Hendon", 0⟩ := rfl
    rw [hf]
    show (if (⟨1, "Math", 20, "Hendon", 0⟩ : Lesson).spaces <
        (⟨1, q, 20⟩ : OrderItem).quantity then some (OrderItem.id ⟨1, q, 20⟩)
      else checkItems [⟨1, "Math", 20, "Hendon", 0⟩] []) = some 1
    rw [if_pos hq]
  rw [postOrders]
  simp only []
  rw [if_neg hv, if_neg (by rw [hsnap]; simp), hchk]

/-- C8 witness: the scenario at q = 1. -/
theorem c8_exhaustion_witness :
    (0:Int) < 1 ∧
    (postOrders sampleState ⟨"Alice", "0700", [⟨1, 5, 20⟩]⟩ =
      (PostResult.created ⟨"Alice", "0700", [⟨1, 5, 20⟩], 100⟩, c8AfterState) ∧
    getSpaces c8AfterState 1 = some 0 ∧
    postOrders c8AfterState ⟨"Bob", "0701", [⟨1, 1, 20⟩]⟩ =
      (PostResult.insufficientCapacity 1, c8AfterState)) :=
  ⟨by decide, c8_exhaustion (by decide)⟩

/-- c9ReqA, c9ReqB: two independent reservation requests, each for 3 units of
item 1. -/
def c9ReqA : OrderReq := ⟨"Alice", "0700", [⟨1, 3, 20⟩]⟩

def c9ReqB : OrderReq := ⟨"Bob", "0701", [⟨1, 3, 20⟩]⟩

/-- C9: the handler's capacity check and its decrement are separate store
operations — the `find` that takes the snapshot and the later `$inc` writes
sit at different await points — not one indivisible step. Interleaving two
quantity-3 requests against item 1 (spaces 5) so that both snapshots are
read before either write: both requests pass their capacity check on the
same snapshot, and applying both committed decrements leaves spaces
5 - 3 - 3 = -1 — whereas the claimed atomic conditional decrement would let
exactly one succeed and leave spaces 2. -/
theorem c9_check_and_decrement_not_atomic :
    checkItems (ordersSnapshot sampleState.lessons c9ReqA.items) c9ReqA.items = none ∧
    checkItems (ordersSnapshot sampleState.lessons c9ReqB.items) c9ReqB.items = none ∧
    (decSpaces (decSpaces sampleState.lessons c9ReqA.items) c9ReqB.items).find?
        (fun l => l.id == 1) = some ⟨1, "Math", 20, "Hendon", -1⟩ := by
  decide

/-- C10: a Place Order request (required fields present) whose line items
repeat some itemId is answered with the 404 "Some lessons were not found"
outcome even when every referenced itemId exists: `$in` returns one document
per distinct id, so `lessons.length !== items.length` fires, and the state is
unchanged. -/
theorem c10_duplicate_ids_not_found {st : State} {req : OrderReq}
    (hnd : (st.lessons.map Lesson.id).Nodup)
    (hname : req.name ≠ "") (hphone : req.phoneNumber ≠ "")
    (hdup : ¬ (reqIds req.items).Nodup)
    (_hall : ∀ it ∈ req.items, ∃ l, l ∈ st.lessons ∧ l.id = it.id) :
    postOrders st req = (PostResult.itemsNotFound, st) := by
  have hne : req.items ≠ [] := by
    intro he
    exact hdup (by simp [he, reqIds])
  have hv : ¬ (req.name = "" ∨ req.phoneNumber = "" ∨ req.items = []) := by
    push_neg
    exact ⟨hname, hphone, hne⟩
  have hlen : (ordersSnapshot st.lessons req.items).length ≠ req.items.length := by
    intro he
    exact hdup ((snapshot_length_eq_iff hnd).mp he).1
  rw [postOrders]
  rw [if_neg hv, if_pos hlen]

/-- c10Req: a request naming the existing item 1 in two line items. -/
def c10Req : OrderReq := ⟨"Carol", "0702", [⟨1, 1, 20⟩, ⟨1, 2, 20⟩]⟩

/-- C10 witness: both line items reference the existing item 1, and the
request is rejected with not-found. -/
theorem c10_duplicate_ids_not_found_witness :
    ((sampleState.lessons.map Lesson.id).Nodup ∧
     ¬ (reqIds c10Req.items).Nodup ∧
     (∀ it ∈ c10Req.items, ∃ l, l ∈ sampleState.lessons ∧ l.id = it.id)) ∧
    postOrders sampleState c10Req = (PostResult.itemsNotFound, sampleState) :=
  ⟨⟨by decide, by decide, by decide⟩,
   @c10_duplicate_ids_not_found sampleState c10Req
     (by decide) (by decide) (by decide) (by decide) (by decide)⟩

end WebStore
